import Mathlib

/-!
Verification of the slack-summarizer message-retrieval and caching pipeline.

The definitions below are a shallow embedding of
`slack_summarizer/slack_client.py` (history fetch with thread expansion,
identity cache), `slack_summarizer/main.py` (per-channel orchestration loop)
and the relevant parts of `slack_summarizer/summarizer.py`.
-/

set_option autoImplicit false

namespace SlackSummarizer

/-- One Slack message as returned by the retrieval service.  `ts` is the
message id / timestamp (an opaque high-precision numeric string in the wire
format, modelled as a natural number so that the ordering claims are
statable); `type` and `subtype` are the wire fields of the same names;
`thread_ts` is the optional thread-root reference. -/
structure Msg where
  ts : Nat
  type : String
  subtype : Option String
  thread_ts : Option Nat
  user : Option String
  text : String
deriving DecidableEq

/-- One page of `conversations.history` output: the message list, the
`response_metadata.next_cursor` field (absent or possibly the empty string)
and the `has_more` flag. -/
structure Page where
  messages : List Msg
  next_cursor : Option String
  has_more : Bool

/-- The filter applied by `get_channel_messages` to history messages and to
thread replies: `msg.get("type") == "message" and not msg.get("subtype")`. -/
def keepMsg (m : Msg) : Bool :=
  m.type == "message" && m.subtype == none

/-- Python truthiness of the cursor value: `None` and the empty string are
falsy, every other string is truthy. -/
def truthyCursor : Option String → Bool
  | none => false
  | some s => !(s == "")

/-- The loop-exit test of `get_channel_messages`:
`if not cursor or not response.get("has_more", False): break`. -/
def pageIsLast (p : Page) : Bool :=
  !truthyCursor p.next_cursor || !p.has_more

/-- The reply expansion performed for a kept message carrying a `thread_ts`
field: call `conversations.replies`, drop the first returned entry (the
parent) and keep the ordinary replies.  `replies t` models the service's
response for thread root `t` (bounded by the fixed `oldest` timestamp of the
enclosing call).  A message without `thread_ts` triggers no call. -/
def expandThread (replies : Nat → List Msg) (m : Msg) : List Msg :=
  match m.thread_ts with
  | none => []
  | some t => ((replies t).drop 1).filter keepMsg

/-- Processing of one history page by `get_channel_messages`: each kept
message is appended, immediately followed by its thread expansion. -/
def processPage (replies : Nat → List Msg) : List Msg → List Msg
  | [] => []
  | m :: rest =>
    if keepMsg m then
      m :: (expandThread replies m ++ processPage replies rest)
    else
      processPage replies rest

/-- `get_channel_messages`, over the sequence of pages the retrieval service
would serve to the successive `conversations.history` requests.  The loop
processes a page, then stops when the page lacks a truthy next cursor or a
true `has_more` flag; otherwise it requests the next page.  (The error
branches — `channel_not_found` and a failing reply expansion — are not
modelled; the claims below are about the successful path.) -/
def get_channel_messages (replies : Nat → List Msg) : List Page → List Msg
  | [] => []
  | p :: rest =>
    processPage replies p.messages ++
      (if pageIsLast p then [] else get_channel_messages replies rest)

/-- Number of `conversations.history` requests issued by the pagination loop
when the service serves the given page sequence: one request per consumed
page. -/
def numHistoryRequests : List Page → Nat
  | [] => 0
  | p :: rest => 1 + (if pageIsLast p then 0 else numHistoryRequests rest)

/-- The prefix of the served page sequence that the loop actually consumes. -/
def consumedPages : List Page → List Page
  | [] => []
  | p :: rest => p :: (if pageIsLast p then [] else consumedPages rest)

/-- Thread roots for which `get_channel_messages` issues a
`conversations.replies` request while scanning one page: one request per kept
message whose `thread_ts` field is present. -/
def pageThreadRequests : List Msg → List Nat
  | [] => []
  | m :: rest =>
    (if keepMsg m then
      (match m.thread_ts with
       | some t => [t]
       | none => ([] : List Nat))
     else []) ++ pageThreadRequests rest

/-- All `conversations.replies` requests issued across the pagination loop. -/
def threadRequests : List Page → List Nat
  | [] => []
  | p :: rest =>
    pageThreadRequests p.messages ++
      (if pageIsLast p then [] else threadRequests rest)

/-- Membership of a message in the thread rooted at id `r`: it is the root
itself or carries the thread reference `r`. -/
def inThread (r : Nat) (m : Msg) : Bool :=
  m.ts == r || m.thread_ts == some r

/-- On-disk state of the identity-cache file `cache/user_cache.json`:
missing, present but not parseable as JSON, or a JSON object whose
`timestamp` field (absent or unparseable modelled as `none`) and `users`
field (absent modelled as `none`) are read independently.  Time is modelled
in seconds. -/
inductive CacheFileState where
  | absent
  | malformed
  | object (timestamp : Option Int) (users : Option (List (String × String)))
deriving DecidableEq

/-- The 24-hour cache TTL (`timedelta(hours=24)`), in seconds. -/
def ttlSeconds : Int := 24 * 3600

/-- `self.user_cache_file.exists()`. -/
def fileExists : CacheFileState → Bool
  | .absent => false
  | _ => true

/-- `_is_cache_valid`: false when the file is missing; false when reading or
parsing raises (`JSONDecodeError`, `KeyError`, `ValueError` are caught and
logged); otherwise `now - fetched_at < 24h`. -/
def is_cache_valid (fs : CacheFileState) (now : Int) : Bool :=
  match fs with
  | .absent => false
  | .malformed => false
  | .object none _ => false
  | .object (some t) _ => decide (now - t < ttlSeconds)

/-- `_load_user_cache`: returns `cache_data["users"]`, or the empty mapping
when parsing fails or the `users` key is missing (`JSONDecodeError` and
`KeyError` are caught); a missing file raises (`FileNotFoundError` is not
caught), modelled by the `Except` error — both call sites guard on the file
existing. -/
def load_user_cache : CacheFileState → Except String (List (String × String))
  | .absent => .error "FileNotFoundError"
  | .malformed => .ok []
  | .object _ none => .ok []
  | .object _ (some users) => .ok users

/-- One record of the `users.list` response: the member id plus the
`profile.display_name`, `profile.real_name` and top-level `name` (account
name) fields, each possibly absent. -/
structure Member where
  id : String
  display_name : Option String
  real_name : Option String
  name : Option String
deriving DecidableEq

/-- Python's `a or b` for an optional string `a`: `None` and the empty
string are falsy. -/
def pyOrStr (a : Option String) (b : String) : String :=
  match a with
  | some s => if s = "" then b else s
  | none => b

/-- The name chosen for one member:
`display_name or real_name or username or user_id`. -/
def resolveName (m : Member) : String :=
  pyOrStr m.display_name (pyOrStr m.real_name (pyOrStr m.name m.id))

/-- Python dict assignment `d[k] = v`: replace the value in place if the key
is present, else append the binding. -/
def dictSet : List (String × String) → String → String → List (String × String)
  | [], k, v => [(k, v)]
  | (k', v') :: rest, k, v =>
    if k' = k then (k, v) :: rest else (k', v') :: dictSet rest k v

/-- The mapping built by `fetch_user_mapping` from the `users.list`
response: `user_mapping[user_id] = display_name or real_name or username or
user_id` for each member in order. -/
def buildMapping (members : List Member) : List (String × String) :=
  members.foldl (fun acc m => dictSet acc m.id (resolveName m)) []

/-- Outcome of the bulk `users.list` call: the member list, or a
`SlackApiError`. -/
inductive UsersListResult where
  | ok (members : List Member)
  | apiError

/-- Observable result of one `fetch_user_mapping` call: the returned
mapping, whether a network request was attempted, and the cache file state
afterwards. -/
structure FetchOutcome where
  mapping : List (String × String)
  networkCalled : Bool
  cacheAfter : CacheFileState
deriving DecidableEq

/-- `fetch_user_mapping`: return the cached mapping when the cache is valid
(no network call); otherwise call `users.list`, and on success build the
mapping, persist `{timestamp: now, users: mapping}` and return it; on
`SlackApiError`, fall back to the (possibly expired) cache file when it
exists, else return the empty mapping. -/
def fetch_user_mapping (fs : CacheFileState) (now : Int) (api : UsersListResult) :
    Except String FetchOutcome :=
  if is_cache_valid fs now then
    match load_user_cache fs with
    | .ok u => .ok ⟨u, false, fs⟩
    | .error e => .error e
  else
    match api with
    | .ok members =>
      .ok ⟨buildMapping members, true,
        .object (some now) (some (buildMapping members))⟩
    | .apiError =>
      if fileExists fs then
        match load_user_cache fs with
        | .ok u => .ok ⟨u, true, fs⟩
        | .error e => .error e
      else
        .ok ⟨[], true, fs⟩

/-- Whether a `fetch_user_mapping` run reached the `users.list` request. -/
def networkPerformed : Except String FetchOutcome → Bool
  | .ok o => o.networkCalled
  | .error _ => false

/-- Name resolution as the spec words it: the first non-empty value in the
given precedence list, else the default. -/
def firstNonEmpty : List (Option String) → String → String
  | [], d => d
  | o :: rest, d =>
    match o with
    | some s => if s = "" then firstNonEmpty rest d else s
    | none => firstNonEmpty rest d

/-- Spec-side name resolution: first non-empty of display name, real name,
account name, else the raw id. -/
def specResolveName (m : Member) : String :=
  firstNonEmpty [m.display_name, m.real_name, m.name] m.id

/-- The opening brace character of a JSON object document. -/
def openBrace : Char := Char.ofNat 123

/-- The closing brace character of a JSON object document. -/
def closeBrace : Char := Char.ofNat 125

/-- The in-memory `cache_data` dictionary passed to `_save_user_cache`:
`{"timestamp": datetime.now().isoformat(), "users": user_mapping}`. -/
structure CacheData where
  timestamp : String
  users : List (String × String)

/-- JSON rendering of the `users` object body. -/
def renderUsers : List (String × String) → String
  | [] => ""
  | [(k, v)] => "\"" ++ k ++ "\": \"" ++ v ++ "\""
  | (k, v) :: rest => "\"" ++ k ++ "\": \"" ++ v ++ "\", " ++ renderUsers rest

/-- The serialized snapshot `json.dump` produces for `cache_data`: one JSON
object document holding the `timestamp` and `users` fields. -/
def serializeCache (d : CacheData) : String :=
  String.mk (openBrace ::
    ("\"timestamp\": \"" ++ d.timestamp ++ "\", \"users\": \x7b"
      ++ renderUsers d.users ++ "\x7d").data ++ [closeBrace])

/-- One filesystem action performed by `_save_user_cache`: opening the cache
file with mode `"w"` truncates it in place; `json.dump` then appends the
serialized text in one or more buffered writes.  No temporary file and no
rename is involved. -/
inductive FsAction where
  | truncate
  | writeChunk (chunk : String)

/-- Effect of one filesystem action on the cache file's content. -/
def applyAction (content : String) : FsAction → String
  | .truncate => ""
  | .writeChunk c => content ++ c

/-- The successive on-disk contents of the cache file while a sequence of
actions runs, starting from `init`: the state before any action and the
state after each action — the points at which a crash can stop the writer or
a concurrent reader can look. -/
def fileStates (init : String) : List FsAction → List String
  | [] => [init]
  | a :: rest => init :: fileStates (applyAction init a) rest

/-- The actions `_save_user_cache` performs: truncate the cache file in
place, then write the chunks of the serialized snapshot in order. -/
def save_user_cache_actions (chunks : List String) : List FsAction :=
  FsAction.truncate :: chunks.map FsAction.writeChunk

/-- All on-disk contents observable during a `_save_user_cache` run that
writes the given chunks over a file holding `init`. -/
def writeStates (init : String) (chunks : List String) : List String :=
  fileStates init (save_user_cache_actions chunks)

/-- Whether a file content is one complete JSON object document (as every
complete `{timestamp, users}` snapshot is): it starts with an opening brace
and ends with a closing brace. -/
def completeJsonObject (s : String) : Bool :=
  s.data.head? == some openBrace && s.data.getLast? == some closeBrace

/-- Result of one digest-generation call (`summarize_messages`): the
generated Markdown, or the exception the method re-raises after logging. -/
inductive DigestResult where
  | ok (text : String)
  | genError

/-- The per-channel orchestration loop of `main`: for each configured
channel, fetch its messages; when empty, log and continue with no artifact;
otherwise generate the digest and write one artifact.  The loop body has no
exception handler, so a digest failure propagates out of the loop.  Returns
the channels for which an artifact was written, paired with the channel
whose digest failure aborted the run, if any.  (Channel-name resolution,
logging and the artifact file contents are not modelled.) -/
def runChannels (fetch : String → List Msg) (digest : List Msg → DigestResult) :
    List String → List String × Option String
  | [] => ([], none)
  | c :: rest =>
    if (fetch c).isEmpty then
      runChannels fetch digest rest
    else
      match digest (fetch c) with
      | .ok _ =>
        let r := runChannels fetch digest rest
        (c :: r.1, r.2)
      | .genError => ([], some c)

/-- Thread root used by the C1 scenarios: an ordinary message whose
`thread_ts` equals its own id. -/
def c1Root : Msg := ⟨1, "message", none, some 1, none, "root"⟩

/-- An ordinary reply of the thread rooted at id 1. -/
def c1Reply : Msg := ⟨2, "message", none, some 1, none, "re"⟩

/-- A non-ordinary (subtype) reply of the thread rooted at id 1. -/
def c1SubReply : Msg := ⟨3, "message", some "bot_message", some 1, none, "sys"⟩

/-- A reply-expansion service answering thread root 1 with the root followed
by one ordinary reply. -/
def c1Replies : Nat → List Msg := fun t => if t = 1 then [c1Root, c1Reply] else []

/-- A page sequence in which the service returns the thread root twice. -/
def c1Pages : List Page := [⟨[c1Root, c1Root], none, false⟩]

/-- Reply-expansion service for the C1 witness: the root followed by one
ordinary and one subtype reply. -/
def c1wReplies : Nat → List Msg :=
  fun t => if t = 1 then [c1Root, c1Reply, c1SubReply] else []

/-- Page sequence for the C1 witness: the root appears once. -/
def c1wPages : List Page := [⟨[c1Root], none, false⟩]

end SlackSummarizer

namespace SlackSummarizer

theorem processPage_eq_flatMap (replies : Nat → List Msg) (l : List Msg) :
    processPage replies l =
      (l.filter keepMsg).flatMap (fun m => m :: expandThread replies m) := by
  induction l with
  | nil => rfl
  | cons m rest ih =>
    by_cases h : keepMsg m = true
    · simp [processPage, h, List.filter_cons, ih]
    · simp only [Bool.not_eq_true] at h
      simp [processPage, h, List.filter_cons, ih]

theorem get_channel_messages_eq_flatMap (replies : Nat → List Msg)
    (pages : List Page) :
    get_channel_messages replies pages =
      (consumedPages pages).flatMap (fun p => processPage replies p.messages) := by
  induction pages with
  | nil => rfl
  | cons p rest ih =>
    by_cases h : pageIsLast p = true
    · simp [get_channel_messages, consumedPages, h]
    · simp only [Bool.not_eq_true] at h
      simp [get_channel_messages, consumedPages, h, ih]

theorem pageThreadRequests_eq (l : List Msg) :
    pageThreadRequests l = (l.filter keepMsg).filterMap Msg.thread_ts := by
  induction l with
  | nil => rfl
  | cons m rest ih =>
    by_cases h : keepMsg m = true
    · cases ht : m.thread_ts <;>
        simp [pageThreadRequests, h, ht, List.filter_cons, ih]
    · simp only [Bool.not_eq_true] at h
      simp [pageThreadRequests, h, List.filter_cons, ih]

theorem get_channel_messages_eq_kept (replies : Nat → List Msg)
    (pages : List Page) :
    get_channel_messages replies pages =
      ((consumedPages pages).flatMap (fun p => p.messages.filter keepMsg)).flatMap
        (fun m => m :: expandThread replies m) := by
  rw [get_channel_messages_eq_flatMap, List.flatMap_assoc]
  exact List.flatMap_congr (fun p _ => processPage_eq_flatMap replies p.messages)

theorem filter_flatMap_cons_single (q : Msg → Bool) (f : Msg → List Msg)
    (root : Msg) (res : List Msg) (hq : q root = true)
    (hres : (f root).filter q = res) :
    ∀ l : List Msg, l.filter q = [root] →
      (∀ m ∈ l, m ≠ root → (f m).filter q = []) →
      (l.flatMap (fun m => m :: f m)).filter q = root :: res := by
  intro l
  induction l with
  | nil => intro h1 _; simp at h1
  | cons m rest ih =>
    intro h1 h2
    rw [List.flatMap_cons, List.filter_append]
    by_cases hm : q m = true
    · rw [List.filter_cons, if_pos hm] at h1
      have hmr : m = root := (List.cons_eq_cons.mp h1).1
      have hrest : rest.filter q = [] := (List.cons_eq_cons.mp h1).2
      have hrnil : (rest.flatMap (fun m => m :: f m)).filter q = [] := by
        rw [List.filter_flatMap, List.flatMap_eq_nil_iff]
        intro x hx
        have hqx : ¬ q x = true := List.filter_eq_nil_iff.mp hrest x hx
        have hxne : x ≠ root := fun he => hqx (he ▸ hq)
        rw [List.filter_cons, if_neg hqx, h2 x (List.mem_cons_of_mem _ hx) hxne]
      rw [hrnil, List.filter_cons, if_pos hm, hmr, hres, List.append_nil]
    · rw [List.filter_cons, if_neg hm] at h1
      have hmne : m ≠ root := fun he => hm (he ▸ hq)
      rw [List.filter_cons, if_neg hm, h2 m (List.mem_cons_self m rest) hmne,
        List.nil_append]
      exact ih h1 (fun x hx hxne => h2 x (List.mem_cons_of_mem _ hx) hxne)

/-- C1, counterexample: the page sequence `c1Pages` serves the thread root
twice, and the reply-expansion call returns N = 1 ordinary and M = 0 subtype
replies; the claim then demands exactly 1 + 1 = 2 entries for the thread with
the root held once, but `get_channel_messages` returns 4 entries for the
thread and the root twice — nothing in the code deduplicates across pages. -/
theorem claim_C1_counterexample :
    (get_channel_messages c1Replies c1Pages).countP (inThread 1) = 4 ∧
    (get_channel_messages c1Replies c1Pages).countP (fun m => m.ts == 1) = 2 := by
  decide

/-- C1, amended: provided the service's responses follow the API contract for
the thread rooted at `r` — the root is the unique kept page message of that
thread, the reply-expansion response is the root followed by the replies
(each carrying the thread reference and a distinct id), and no other
expansion contributes messages of that thread — the fetched sequence holds
exactly 1 + N entries of the thread, where N is the number of ordinary
replies returned, and the root exactly once. -/
theorem claim_C1_amended (replies : Nat → List Msg) (pages : List Page)
    (r : Nat) (root : Msg) (tl : List Msg)
    (hkept : ((consumedPages pages).flatMap
        (fun p => p.messages.filter keepMsg)).filter (inThread r) = [root])
    (hts : root.ts = r)
    (hthread : root.thread_ts = some r)
    (hreplies : replies r = root :: tl)
    (htl : ∀ m ∈ tl, m.thread_ts = some r ∧ m.ts ≠ r)
    (hothers : ∀ m ∈ (consumedPages pages).flatMap
        (fun p => p.messages.filter keepMsg),
      m ≠ root → (expandThread replies m).filter (inThread r) = []) :
    ((get_channel_messages replies pages).filter (inThread r)).length
        = 1 + (tl.filter keepMsg).length ∧
    (get_channel_messages replies pages).countP (fun m => m.ts == r) = 1 := by
  have hqroot : inThread r root = true := by
    simp [inThread, hts]
  have hexp : (expandThread replies root).filter (inThread r)
      = tl.filter keepMsg := by
    have h1 : expandThread replies root = tl.filter keepMsg := by
      simp [expandThread, hthread, hreplies]
    rw [h1]
    refine List.filter_eq_self.mpr (fun m hm => ?_)
    have hmem : m ∈ tl := List.mem_of_mem_filter hm
    simp [inThread, (htl m hmem).1]
  have hfil : (get_channel_messages replies pages).filter (inThread r)
      = root :: tl.filter keepMsg := by
    rw [get_channel_messages_eq_kept]
    exact filter_flatMap_cons_single (inThread r)
      (fun m => expandThread replies m) root (tl.filter keepMsg) hqroot hexp
      _ hkept hothers
  refine ⟨by rw [hfil, List.length_cons, Nat.add_comm], ?_⟩
  have himp : ∀ m : Msg, (m.ts == r) = true → inThread r m = true := by
    intro m h
    simp [inThread, h]
  have hcong : (get_channel_messages replies pages).countP (fun m => m.ts == r)
      = (get_channel_messages replies pages).countP
          (fun m => (m.ts == r) && inThread r m) := by
    refine List.countP_congr (fun m _ => ?_)
    constructor
    · intro h; simp [h, himp m h]
    · intro h; exact ((Bool.and_eq_true _ _).mp h).1
  rw [hcong, ← List.countP_filter, hfil, List.countP_cons]
  have hzero : (tl.filter keepMsg).countP (fun m => m.ts == r) = 0 := by
    refine List.countP_eq_zero.mpr (fun m hm => ?_)
    have hmem : m ∈ tl := List.mem_of_mem_filter hm
    simpa using (htl m hmem).2
  simp [hzero, hts]

/-- Witness for the amended C1 at a concrete service: N = 1 ordinary reply,
M = 1 subtype reply, so the thread contributes 1 + 1 entries and the root
appears once. -/
theorem claim_C1_witness :
    ((get_channel_messages c1wReplies c1wPages).filter (inThread 1)).length
        = 1 + (([c1Reply, c1SubReply].filter keepMsg).length) ∧
    (get_channel_messages c1wReplies c1wPages).countP (fun m => m.ts == 1) = 1 :=
  claim_C1_amended c1wReplies c1wPages 1 c1Root [c1Reply, c1SubReply]
    (by decide) (by decide) (by decide) (by decide) (by decide) (by decide)

/-- C4: the pagination loop of `get_channel_messages` stops after the current
request as soon as the response lacks a truthy next cursor or lacks a true
`has_more` flag (each condition alone suffices), and continues otherwise; for
a simulated service returning next cursors c1, then c2, then none across
three pages, exactly three history requests are issued. -/
theorem claim_C4 :
    (∀ (p : Page) (rest : List Page),
      truthyCursor p.next_cursor = false ∨ p.has_more = false →
        numHistoryRequests (p :: rest) = 1) ∧
    (∀ (p : Page) (rest : List Page),
      truthyCursor p.next_cursor = true → p.has_more = true →
        numHistoryRequests (p :: rest) = 1 + numHistoryRequests rest) ∧
    (∀ (m1 m2 m3 : List Msg) (c1 c2 : String) (b : Bool), c1 ≠ "" → c2 ≠ "" →
      numHistoryRequests
        [⟨m1, some c1, true⟩, ⟨m2, some c2, true⟩, ⟨m3, none, b⟩] = 3) := by
  refine ⟨?_, ?_, ?_⟩
  · intro p rest h
    have hlast : pageIsLast p = true := by
      rcases h with h | h <;> simp [pageIsLast, h]
    simp [numHistoryRequests, hlast]
  · intro p rest h1 h2
    have hlast : pageIsLast p = false := by
      simp [pageIsLast, h1, h2]
    simp [numHistoryRequests, hlast]
  · intro m1 m2 m3 c1 c2 b h1 h2
    simp [numHistoryRequests, pageIsLast, truthyCursor, h1, h2]

/-- Witness for C4 at a concrete three-page service. -/
theorem claim_C4_witness :
    numHistoryRequests
      [⟨[], some "c1", true⟩, ⟨[], some "c2", true⟩, ⟨[], none, true⟩] = 3 :=
  claim_C4.2.2 [] [] [] "c1" "c2" true (by decide) (by decide)

/-- C2, counterexample: the fetched sequence is not ordered by increasing
message id.  A single page holding ids 5 then 3 (the service returns history
newest-first) is returned in page order, so the output id sequence 5, 3 is
not increasing. -/
theorem claim_C2_counterexample :
    ¬ List.Chain' (· < ·)
      ((get_channel_messages (fun _ => [])
        [⟨[⟨5, "message", none, none, none, "b"⟩,
           ⟨3, "message", none, none, none, "a"⟩], none, false⟩]).map
        Msg.ts) := by
  intro hc
  have h : ((get_channel_messages (fun _ => [])
      [⟨[⟨5, "message", none, none, none, "b"⟩,
         ⟨3, "message", none, none, none, "a"⟩], none, false⟩]).map
      Msg.ts) = [5, 3] := by rfl
  rw [h] at hc
  exact absurd (List.chain'_cons.mp hc).1 (by omega)

/-- C2, amended: `get_channel_messages` returns, over the consumed prefix of
the served pages, each kept message in page order immediately followed by its
filtered thread expansion; no global sorting and no duplicate removal is
performed. -/
theorem claim_C2_amended (replies : Nat → List Msg) (pages : List Page) :
    get_channel_messages replies pages =
      (consumedPages pages).flatMap
        (fun p => (p.messages.filter keepMsg).flatMap
          (fun m => m :: expandThread replies m)) := by
  rw [get_channel_messages_eq_flatMap]
  exact List.flatMap_congr (fun p _ => processPage_eq_flatMap replies p.messages)

/-- C5, counterexample: a kept message whose `thread_ts` (here 1) differs
from its own id (here 2) does trigger a reply-expansion request — the code
only tests `msg.get("thread_ts")` for truthiness, never compares it with the
message's own `ts`. -/
theorem claim_C5_counterexample :
    threadRequests [⟨[⟨2, "message", none, some 1, none, "hi"⟩], none, false⟩]
      = [1] ∧ (2 : Nat) ≠ 1 := by
  decide

/-- C5, amended: a reply-expansion request is issued for a kept message
exactly when its `thread_ts` field is present, whether or not it equals the
message's own id: the issued requests are precisely the `thread_ts` values of
the kept messages of the consumed pages. -/
theorem claim_C5_amended (pages : List Page) :
    threadRequests pages =
      (consumedPages pages).flatMap
        (fun p => (p.messages.filter keepMsg).filterMap Msg.thread_ts) := by
  induction pages with
  | nil => rfl
  | cons p rest ih =>
    by_cases h : pageIsLast p = true
    · simp [threadRequests, consumedPages, h, pageThreadRequests_eq]
    · simp only [Bool.not_eq_true] at h
      simp [threadRequests, consumedPages, h, pageThreadRequests_eq, ih]

/-- C6: with a well-formed persisted cache entry, a request within 24 hours
of the fetch returns the cached mapping unchanged and performs no network
call, while a request at or past 24 hours reaches the `users.list`
request — whatever that request then returns. -/
theorem claim_C6 (t now : Int) (u : List (String × String))
    (api : UsersListResult) :
    (now - t < ttlSeconds →
      fetch_user_mapping (.object (some t) (some u)) now api
        = .ok ⟨u, false, .object (some t) (some u)⟩) ∧
    (ttlSeconds ≤ now - t →
      networkPerformed
        (fetch_user_mapping (.object (some t) (some u)) now api) = true) := by
  constructor
  · intro h
    have hv : is_cache_valid (.object (some t) (some u)) now = true := by
      simp [is_cache_valid]
      exact h
    simp [fetch_user_mapping, hv, load_user_cache]
  · intro h
    have hv : is_cache_valid (.object (some t) (some u)) now = false := by
      simp [is_cache_valid]
      omega
    cases api <;>
      simp [fetch_user_mapping, hv, load_user_cache, fileExists,
        networkPerformed]

/-- Witness for C6: a fetch persisted at time 0, re-requested 23 hours later
(no network call, cached mapping returned) and 25 hours later (network
request performed). -/
theorem claim_C6_witness :
    fetch_user_mapping (.object (some 0) (some [("U1", "Alice")])) 82800
        (.ok []) =
      .ok ⟨[("U1", "Alice")], false, .object (some 0) (some [("U1", "Alice")])⟩ ∧
    networkPerformed
      (fetch_user_mapping (.object (some 0) (some [("U1", "Alice")])) 90000
        .apiError) = true :=
  ⟨(claim_C6 0 82800 [("U1", "Alice")] (.ok [])).1 (by decide),
   (claim_C6 0 90000 [("U1", "Alice")] .apiError).2 (by decide)⟩

/-- C7: when the cache is not valid and the bulk `users.list` call fails, no
exception escapes `fetch_user_mapping`: a persisted (stale) entry is
returned unchanged, and with no cache file at all the empty mapping is
returned. -/
theorem claim_C7 (t : Option Int) (u : List (String × String)) (now : Int)
    (hstale : is_cache_valid (.object t (some u)) now = false) :
    fetch_user_mapping (.object t (some u)) now .apiError
        = .ok ⟨u, true, .object t (some u)⟩ ∧
    fetch_user_mapping .absent now .apiError = .ok ⟨[], true, .absent⟩ := by
  constructor
  · simp [fetch_user_mapping, hstale, load_user_cache, fileExists]
  · simp [fetch_user_mapping, is_cache_valid, fileExists]

/-- Witness for C7: a stale entry fetched at time 0 queried 48 hours
later. -/
theorem claim_C7_witness :
    fetch_user_mapping (.object (some 0) (some [("U1", "Alice")])) 172800
        .apiError =
      .ok ⟨[("U1", "Alice")], true, .object (some 0) (some [("U1", "Alice")])⟩ ∧
    fetch_user_mapping .absent 172800 .apiError = .ok ⟨[], true, .absent⟩ :=
  claim_C7 (some 0) [("U1", "Alice")] 172800 (by decide)

/-- C8: the resolved display name is the first non-empty value in the
precedence order display name > real name > account name > raw id; in
particular `display_name = ""`, `real_name = "Bob"`, `account_name =
"bob123"` resolves to `"Bob"`, and all three empty resolves to the raw
id. -/
theorem claim_C8 :
    (∀ m : Member, resolveName m = specResolveName m) ∧
    resolveName ⟨"U1", some "", some "Bob", some "bob123"⟩ = "Bob" ∧
    resolveName ⟨"U7", some "", some "", some ""⟩ = "U7" := by
  refine ⟨fun m => ?_, by decide, by decide⟩
  obtain ⟨i, d, r, n⟩ := m
  cases d <;> cases r <;> cases n <;> rfl

/-- C10: a cache file holding invalid JSON, or valid JSON without the
`timestamp` field, is treated as invalid — `fetch_user_mapping` proceeds to
a fresh network fetch instead of raising — and a fallback load that fails to
parse (or lacks the `users` field) returns the empty mapping instead of
letting the exception escape. -/
theorem claim_C10 :
    (∀ now : Int, is_cache_valid .malformed now = false) ∧
    (∀ (now : Int) (u : Option (List (String × String))),
      is_cache_valid (.object none u) now = false) ∧
    (∀ (now : Int) (members : List Member),
      fetch_user_mapping .malformed now (.ok members)
        = .ok ⟨buildMapping members, true,
            .object (some now) (some (buildMapping members))⟩) ∧
    load_user_cache .malformed = .ok [] ∧
    (∀ t : Option Int, load_user_cache (.object t none) = .ok []) := by
  refine ⟨fun now => rfl, fun now u => rfl, fun now members => ?_, rfl,
    fun t => rfl⟩
  simp [fetch_user_mapping, is_cache_valid]


theorem fileStates_ne_nil (init : String) (acts : List FsAction) :
    fileStates init acts ≠ [] := by
  cases acts <;> simp [fileStates]

theorem fileStates_head (init : String) (acts : List FsAction) :
    (fileStates init acts).head? = some init := by
  cases acts <;> rfl

theorem fileStates_getLast (acts : List FsAction) :
    ∀ init : String,
      (fileStates init acts).getLast? = some (acts.foldl applyAction init) := by
  induction acts with
  | nil => intro init; rfl
  | cons a rest ih =>
    intro init
    have hstep : fileStates init (a :: rest)
        = init :: fileStates (applyAction init a) rest := rfl
    rw [hstep]
    cases hfs : fileStates (applyAction init a) rest with
    | nil => exact absurd hfs (fileStates_ne_nil _ _)
    | cons y l =>
      rw [List.getLast?_cons_cons, ← hfs, ih (applyAction init a)]
      rfl

theorem foldl_applyAction_writeChunk (chunks : List String) :
    ∀ s : String,
      (chunks.map FsAction.writeChunk).foldl applyAction s
        = chunks.foldl (· ++ ·) s := by
  induction chunks with
  | nil => intro s; rfl
  | cons c rest ih => intro s; exact ih (s ++ c)

/-- C3, counterexample: a `_save_user_cache` run that rewrites an existing
snapshot passes through an on-disk state that is not a complete JSON object
document — the file is truncated in place before the new content is written,
so not every observable state during the write is a complete snapshot. -/
theorem claim_C3_counterexample :
    ((writeStates
        (serializeCache ⟨"2024-05-01T00:00:00", [("U1", "Alice")]⟩)
        [serializeCache ⟨"2024-05-02T00:00:00", [("U2", "Bob")]⟩]).all
      completeJsonObject) = false := by
  decide

/-- C3, amended: the cache write is in-place, not write-then-publish: the
file is truncated first (the state observed right after that point is the
empty file, which is not a complete snapshot — every serialized snapshot is
a complete JSON object document), and only once every chunk has been written
does the file hold the full serialized snapshot; a stop mid-write leaves an
empty or partial file. -/
theorem claim_C3_amended (init : String) (chunks : List String)
    (d : CacheData) :
    (writeStates init chunks).getLast? = some (chunks.foldl (· ++ ·) "") ∧
    (writeStates init chunks)[1]? = some "" ∧
    completeJsonObject (serializeCache d) = true := by
  refine ⟨?_, ?_, ?_⟩
  · rw [writeStates, fileStates_getLast]
    show some ((chunks.map FsAction.writeChunk).foldl applyAction
      (applyAction init .truncate)) = _
    rw [foldl_applyAction_writeChunk]
    rfl
  · have hstep : writeStates init chunks
        = init :: fileStates "" (chunks.map FsAction.writeChunk) := rfl
    rw [hstep, List.getElem?_cons_succ]
    cases hfs : fileStates "" (chunks.map FsAction.writeChunk) with
    | nil => exact absurd hfs (fileStates_ne_nil _ _)
    | cons y l =>
      have hh : y = "" := by
        have h := fileStates_head "" (chunks.map FsAction.writeChunk)
        rw [hfs] at h
        exact Option.some.inj h
      rw [List.getElem?_cons_zero, hh]
  · show (_ && _) = true
    have hlast : (serializeCache d).data.getLast? = some closeBrace := by
      show (openBrace ::
        (("\"timestamp\": \"" ++ d.timestamp ++ "\", \"users\": \x7b"
          ++ renderUsers d.users ++ "\x7d").data ++ [closeBrace])).getLast?
        = some closeBrace
      rw [show (openBrace ::
        (("\"timestamp\": \"" ++ d.timestamp ++ "\", \"users\": \x7b"
          ++ renderUsers d.users ++ "\x7d").data ++ [closeBrace]))
        = (openBrace ::
          ("\"timestamp\": \"" ++ d.timestamp ++ "\", \"users\": \x7b"
            ++ renderUsers d.users ++ "\x7d").data) ++ [closeBrace] from rfl]
      exact List.getLast?_concat _
    have hhead : (serializeCache d).data.head? = some openBrace := rfl
    rw [hhead, hlast]
    rfl

/-- Witness for the amended C3: one concrete rewrite of the cache file. -/
theorem claim_C3_witness :
    (writeStates "old" ["chunk1", "chunk2"]).getLast?
        = some (["chunk1", "chunk2"].foldl (· ++ ·) "") ∧
    (writeStates "old" ["chunk1", "chunk2"])[1]? = some "" ∧
    completeJsonObject
      (serializeCache ⟨"2024-05-01T00:00:00", [("U1", "Alice")]⟩) = true :=
  claim_C3_amended "old" ["chunk1", "chunk2"]
    ⟨"2024-05-01T00:00:00", [("U1", "Alice")]⟩

/-- C9, counterexample: channels C1 and C2 both have messages, and digest
generation fails on channel C1's transcript only; the claim demands that C2
still be processed (and C1 alone lose its artifact), but the loop has no
per-channel handler — the run aborts at C1 and no artifact is produced for
either channel. -/
theorem claim_C9_counterexample :
    runChannels
      (fun c => [⟨1, "message", none, none, none, c⟩])
      (fun msgs => if msgs.any (fun m => m.text == "C1")
        then .genError else .ok "digest")
      ["C1", "C2"] = ([], some "C1") := by
  rfl

/-- C9, amended: a failure while generating one channel's digest produces no
artifact for that channel and aborts the orchestration loop — no remaining
channel is processed (channels already completed keep their artifacts). -/
theorem claim_C9_amended (fetch : String → List Msg)
    (digest : List Msg → DigestResult) (c : String) (rest : List String)
    (hne : (fetch c).isEmpty = false)
    (herr : digest (fetch c) = .genError) :
    runChannels fetch digest (c :: rest) = ([], some c) := by
  simp [runChannels, hne, herr]

/-- Witness for the amended C9 at a concrete failing digest. -/
theorem claim_C9_witness :
    runChannels (fun _ => [⟨1, "message", none, none, none, "hi"⟩])
      (fun _ => .genError) ["C1", "C2"] = ([], some "C1") :=
  claim_C9_amended (fun _ => [⟨1, "message", none, none, none, "hi"⟩])
    (fun _ => .genError) "C1" ["C2"] (by decide) rfl

end SlackSummarizer
